import Mathlib

/-!
Verification of the SplitXpense synchronization core against its design
specification.  The definitions below are shallow embeddings of the
JavaScript source (`js/shared-sync.js` and the unnamed sync variant
referred to as the part-003 variant): pure fragments become Lean
functions, the remote store and the browser-local storage become an
explicit `World` state threaded through the operations, and fallible
operations return `Except String World`.
-/

namespace SplitXpense

/-! ### UUID shape and generation

`uuidShaped` embeds the regular expression
`/^[0-9a-f]{8}-[0-9a-f]{4}-[0-9a-f]{4}-[0-9a-f]{4}-[0-9a-f]{12}$/i`
used by `syncGroupToDatabase` and `syncExpenseToDatabase`.
`generateUUID` embeds the template substitution over
`xxxxxxxx-xxxx-4xxx-yxxx-xxxxxxxxxxxx`, with the random draws of
`Math.random() * 16 | 0` modelled by a stream `rand : Nat → Fin 16`. -/

def isHexDigit (c : Char) : Bool :=
  ('0' ≤ c && c ≤ '9') || ('a' ≤ c && c ≤ 'f') || ('A' ≤ c && c ≤ 'F')

def hexRun : Nat → List Char → Option (List Char)
  | 0, cs => some cs
  | _ + 1, [] => none
  | n + 1, c :: cs => if isHexDigit c then hexRun n cs else none

def expectDash : List Char → Option (List Char)
  | '-' :: cs => some cs
  | _ => none

def uuidShaped (s : String) : Bool :=
  match (((((((hexRun 8 s.data >>= expectDash) >>= hexRun 4) >>= expectDash) >>=
      hexRun 4) >>= expectDash) >>= hexRun 4) >>= expectDash) >>= hexRun 12 with
  | some [] => true
  | _ => false

/-- Template characters of the version-4 UUID pattern: `x` is a random hex
digit, `y` is a random digit restricted to `8..b`, and literals stand for
themselves. -/
inductive TChar
  | x
  | y
  | lit (c : Char)

def uuidTemplate : List TChar :=
  List.replicate 8 .x ++ [.lit '-'] ++ List.replicate 4 .x ++ [.lit '-', .lit '4'] ++
    List.replicate 3 .x ++ [.lit '-', .y] ++ List.replicate 3 .x ++ [.lit '-'] ++
    List.replicate 12 .x

def hexDigitChar (n : Fin 16) : Char :=
  if n.val < 10 then Char.ofNat (48 + n.val) else Char.ofNat (87 + n.val)

def fillTemplate (rand : Nat → Fin 16) : List TChar → Nat → List Char
  | [], _ => []
  | .x :: ts, k => hexDigitChar (rand k) :: fillTemplate rand ts (k + 1)
  | .y :: ts, k =>
      hexDigitChar ⟨(rand k).val % 4 + 8, by omega⟩ :: fillTemplate rand ts (k + 1)
  | .lit c :: ts, k => c :: fillTemplate rand ts (k + 1)

def generateUUID (rand : Nat → Fin 16) : String :=
  ⟨fillTemplate rand uuidTemplate 0⟩

/-! ### Identity resolver (`syncGroupToDatabase` / `syncExpenseToDatabase`)

The resolver portion of the two sync functions: determine the remote
(`supabaseId`) identifier of an entity and store it back when it was not
already present.  JavaScript truthiness of an optional string field is
modelled by `otruthy` (absent or empty string is falsy). -/

structure GroupEnt where
  id : String
  supabaseId : Option String
deriving DecidableEq

structure ExpenseEnt where
  id : String
  supabaseId : Option String
deriving DecidableEq

def otruthy : Option String → Bool
  | none => false
  | some s => s ≠ ""

/-- Remote-id resolution for groups, from `syncGroupToDatabase`:
priority `group.supabaseId`, then `group.id` when UUID-shaped, else a
freshly generated UUID; the result is stored back when `supabaseId` was
falsy. -/
def resolveGroupRemoteId (g : GroupEnt) (fresh : String) : String × GroupEnt :=
  let sid :=
    if otruthy g.supabaseId then g.supabaseId.getD ""
    else if g.id ≠ "" then
      if uuidShaped g.id then g.id else fresh
    else fresh
  if otruthy g.supabaseId then (sid, g) else (sid, { g with supabaseId := some sid })

/-- Remote-id resolution for expenses, from `syncExpenseToDatabase`:
start from `expense.supabaseId || expense.id`; if that is falsy or not
UUID-shaped, generate a fresh UUID; store back when `supabaseId` was
falsy. -/
def resolveExpenseRemoteId (e : ExpenseEnt) (fresh : String) : String × ExpenseEnt :=
  let sid0 := if otruthy e.supabaseId then e.supabaseId.getD "" else e.id
  let sid := if sid0 = "" || !uuidShaped sid0 then fresh else sid0
  if otruthy e.supabaseId then (sid, e) else (sid, { e with supabaseId := some sid })

/-- The data model types `remoteId` as a UUID whenever it is set
(spec §3: `remoteId (UUID, nullable until first sync)`). -/
def wfRemoteId : Option String → Prop
  | none => True
  | some s => uuidShaped s = true

/-! ### Schema detection (`detectDatabaseSchema`)

The single-flight schema probe.  `DetState` carries the process-global
flags of the source (`schemaDetectionPromise` as `inFlight`,
`window.splitEasySync.schemaChecked`, presence of `window.supabaseClient`,
and the mutable `SCHEMA_MAPPING`).  The remote schema is a predicate
`cols table column` saying whether the zero-row probe for that column
succeeds.  A call to `detect()` is the event `.call`; the resolution of
the in-flight detection promise is the event `.complete`. -/

structure SchemaMap where
  usersCreatedAt : String
  usersUpdatedAt : String
  groupsCreatedBy : String
  groupsCreatedAt : String
  groupsMembers : String
  groupsUpdatedBy : String
  groupsUpdatedAt : String
  expensesGroupId : String
  expensesPaidBy : String
deriving DecidableEq

def defaultSchemaMap : SchemaMap :=
  { usersCreatedAt := "created_at"
    usersUpdatedAt := "updated_at"
    groupsCreatedBy := "created_by"
    groupsCreatedAt := "created_at"
    groupsMembers := "members"
    groupsUpdatedBy := "updated_by"
    groupsUpdatedAt := "updated_at"
    expensesGroupId := "group_id"
    expensesPaidBy := "paid_by" }

/-- One probe round: for each entry of `testQueries`, record the probed
snake-case column when the zero-row select for it succeeds. -/
def applyProbes (cols : String → String → Bool) (m : SchemaMap) : SchemaMap :=
  { usersCreatedAt := if cols "users" "created_at" then "created_at" else m.usersCreatedAt
    usersUpdatedAt := if cols "users" "updated_at" then "updated_at" else m.usersUpdatedAt
    groupsCreatedBy := if cols "groups" "created_by" then "created_by" else m.groupsCreatedBy
    groupsCreatedAt := if cols "groups" "created_at" then "created_at" else m.groupsCreatedAt
    groupsMembers := if cols "groups" "members" then "members" else m.groupsMembers
    groupsUpdatedBy := if cols "groups" "updated_by" then "updated_by" else m.groupsUpdatedBy
    groupsUpdatedAt := if cols "groups" "updated_at" then "updated_at" else m.groupsUpdatedAt
    expensesGroupId := if cols "expenses" "group_id" then "group_id" else m.expensesGroupId
    expensesPaidBy := if cols "expenses" "paid_by" then "paid_by" else m.expensesPaidBy }

structure DetState where
  schemaChecked : Bool
  inFlight : Bool
  hasClient : Bool
  mapping : SchemaMap
deriving DecidableEq

def detectInit : DetState :=
  { schemaChecked := false, inFlight := false, hasClient := true, mapping := defaultSchemaMap }

inductive DetEvent
  | call
  | complete
deriving DecidableEq

/-- What a single call to `detectDatabaseSchema` did: started a new probe
round, joined the in-flight one, or returned immediately. -/
inductive DetectOutcome
  | started
  | joined
  | noop
deriving DecidableEq

def detStep (cols : String → String → Bool) (s : DetState) :
    DetEvent → DetState × Option DetectOutcome
  | .call =>
      if s.inFlight then (s, some .joined)
      else if s.schemaChecked || !s.hasClient then (s, some .noop)
      else ({ s with inFlight := true }, some .started)
  | .complete =>
      if s.inFlight then
        ({ s with inFlight := false, schemaChecked := true,
                  mapping := applyProbes cols s.mapping }, none)
      else (s, none)

def runDet (cols : String → String → Bool) (s : DetState) :
    List DetEvent → DetState × List DetectOutcome
  | [] => (s, [])
  | e :: es =>
      let p := detStep cols s e
      let q := runDet cols p.1 es
      (q.1, p.2.toList ++ q.2)

/-! ### Local cache store

`LGroup`/`LExpense` are the locally cached entities
(`spliteasy_groups`).  `saveGroupsToLocalStorageSafe` embeds the
shared-sync.js persistence primitive, which recomputes `totalExpenses`
only; `saveToLocalStorage` embeds the part-003 variant, which also
recomputes `perPersonAmount` for expenses with a non-empty split set. -/

structure LExpense where
  id : String
  amount : ℚ
  splitBetween : List String
  perPersonAmount : ℚ
deriving DecidableEq

structure LGroup where
  id : String
  supabaseId : Option String
  expenses : List LExpense
  totalExpenses : ℚ
deriving DecidableEq

def saveGroupsToLocalStorageSafe (gs : List LGroup) : List LGroup :=
  gs.map fun g =>
    if g.expenses.length > 0 then
      { g with totalExpenses := (g.expenses.map (·.amount)).sum }
    else
      { g with totalExpenses := 0 }

def saveToLocalStorage (gs : List LGroup) : List LGroup :=
  gs.map fun g =>
    if g.expenses.length > 0 then
      { g with
          totalExpenses := (g.expenses.map (·.amount)).sum
          expenses := g.expenses.map fun e =>
            if e.splitBetween.length > 0 then
              { e with perPersonAmount := e.amount / (e.splitBetween.length : ℚ) }
            else e }
    else
      { g with totalExpenses := 0 }

/-! ### Remote store and the world state

`GroupRow`/`ExpenseRow` are rows of the remote `groups`/`expenses`
tables (logical field names; the schema map translates them to physical
columns).  `World` bundles the remote store, the locally cached group
list and the persisted delete queue (`spliteasy_delete_queue`). -/

structure GroupRow where
  id : String
  name : String
  createdBy : String
  members : List String
  participants : List String
  pendingDeletion : Bool
  deletionInitiatedBy : Option String
  deletionConfirmedBy : List String
  deletionRestoredBy : List String
  deletionInitiatedAt : Option Nat
  updatedAt : Nat
deriving DecidableEq

structure ExpenseRow where
  id : String
  groupId : String
deriving DecidableEq

structure RemoteDB where
  groups : List GroupRow
  expenses : List ExpenseRow
deriving DecidableEq

inductive QType
  | expense
  | group
deriving DecidableEq

structure QItem where
  type : QType
  id : String
  timestamp : Nat
deriving DecidableEq

structure World where
  db : RemoteDB
  localGroups : List LGroup
  queue : List QItem
deriving DecidableEq

/-- `array.push` guarded by `includes`, as used for the `confirmedBy`
and `restoredBy` arrays. -/
def addUnique (l : List String) (u : String) : List String :=
  if u ∈ l then l else l ++ [u]

/-- A supabase `update ... eq(id, gid)`: rewrite every group row whose id
matches. -/
def updateGroup (w : World) (gid : String) (f : GroupRow → GroupRow) : World :=
  { w with db := { w.db with
      groups := w.db.groups.map fun r => if r.id = gid then f r else r } }

/-- `cleanupDeleteQueue`: drop the matching entries from the persisted
delete queue. -/
def cleanupDeleteQueue (q : List QItem) (t : QType) (i : String) : List QItem :=
  q.filter fun it => ¬(it.type = t ∧ it.id = i)

/-- The force-delete path of `deleteGroupFromDatabase(groupId, true)`:
delete the group's expenses, delete the group row, and clean the delete
queue. -/
def forceDeleteGroup (w : World) (gid : String) : World :=
  { db := { groups := w.db.groups.filter fun r => r.id ≠ gid
            expenses := w.db.expenses.filter fun e => e.groupId ≠ gid }
    localGroups := w.localGroups
    queue := cleanupDeleteQueue w.queue .group gid }

/-! ### Deletion operations of `js/shared-sync.js` -/

/-- `deleteExpenseFromDatabase(expenseId)` (shared-sync.js):
offline appends one `{type, id, timestamp}` queue entry and succeeds;
online performs the delete-by-id; when zero rows were affected it
returns early (before the queue cleanup); otherwise it cleans the
queue. -/
def deleteExpenseFromDatabase (w : World) (offline : Bool) (eid : String) (now : Nat) :
    Except String World :=
  if eid = "" then .error "Expense ID is required for deletion"
  else if offline then
    .ok { w with queue := w.queue ++ [⟨.expense, eid, now⟩] }
  else if (w.db.expenses.filter fun e => e.id = eid).length = 0 then
    .ok { w with db := { w.db with expenses := w.db.expenses.filter fun e => e.id ≠ eid } }
  else
    .ok { w with
      db := { w.db with expenses := w.db.expenses.filter fun e => e.id ≠ eid }
      queue := cleanupDeleteQueue w.queue .expense eid }

/-- `deleteGroupFromDatabase(groupId, forceDelete)` (shared-sync.js):
offline queues; `forceDelete` physically deletes; otherwise fetch the
group (error when absent), delete immediately when the creator is the
sole member, else mark the group pending deletion with the initiator
auto-confirmed. -/
def deleteGroupFromDatabase (w : World) (offline : Bool) (gid : String)
    (forceDelete : Bool) (currentUser : String) (now : Nat) : Except String World :=
  if gid = "" then .error "Group ID is required for deletion"
  else if offline then
    .ok { w with queue := w.queue ++ [⟨.group, gid, now⟩] }
  else if forceDelete then .ok (forceDeleteGroup w gid)
  else
    match w.db.groups.find? (fun r => r.id = gid) with
    | none => .error "Group not found or already deleted"
    | some g =>
        if g.members.length = 1 ∧ g.members.head? = some g.createdBy then
          .ok (forceDeleteGroup w gid)
        else
          .ok (updateGroup w gid fun r =>
            { r with
                pendingDeletion := true
                deletionInitiatedBy := some currentUser
                deletionConfirmedBy := [currentUser]
                deletionRestoredBy := []
                deletionInitiatedAt := some now
                updatedAt := now })

/-- `confirmGroupDeletion(groupId)` (shared-sync.js): add the current
user to `confirmedBy`; physically delete when every member has
confirmed; otherwise persist `confirmedBy`, remove the confirming
non-creator member, physically delete when at most the creator remains,
else persist the member list and purge the group from the confirming
user's local cache. -/
def confirmGroupDeletion (w : World) (gid currentUser : String) (now : Nat) :
    Except String World :=
  match w.db.groups.find? (fun r => r.id = gid) with
  | none => .error "Group not found"
  | some g =>
      let confirmedBy := addUnique g.deletionConfirmedBy currentUser
      let members := g.members
      let creatorId := g.createdBy
      if ∀ m ∈ members, m ∈ confirmedBy then
        .ok (forceDeleteGroup w gid)
      else
        let w1 := updateGroup w gid fun r =>
          { r with deletionConfirmedBy := confirmedBy, updatedAt := now }
        let updatedMembers := members.filter fun m => m ≠ currentUser ∨ m = creatorId
        if updatedMembers.length = 0 ∨
            (updatedMembers.length = 1 ∧ updatedMembers.head? = some creatorId) then
          .ok (forceDeleteGroup w1 gid)
        else
          let w2 := updateGroup w1 gid fun r =>
            { r with members := updatedMembers, updatedAt := now }
          .ok { w2 with
            localGroups := saveGroupsToLocalStorageSafe
              (w2.localGroups.filter fun lg => lg.id ≠ gid ∧ lg.supabaseId ≠ some gid) }

/-- `restoreGroup(groupId)` (shared-sync.js): add the current user to
`restoredBy` and unconditionally clear all deletion flags, keeping
`restoredBy`. -/
def restoreGroup (w : World) (gid currentUser : String) (now : Nat) :
    Except String World :=
  match w.db.groups.find? (fun r => r.id = gid) with
  | none => .error "Group not found"
  | some g =>
      let restoredBy := addUnique g.deletionRestoredBy currentUser
      .ok (updateGroup w gid fun r =>
        { r with
            pendingDeletion := false
            deletionInitiatedBy := none
            deletionConfirmedBy := []
            deletionRestoredBy := restoredBy
            deletionInitiatedAt := none
            updatedAt := now })

/-! ### The part-003 sync variant

These embed the same-named functions of the unnamed source variant
(part 003).  Remote deletes there can fail (the thrown supabase error);
the failure pattern is a parameter `fails : String → Bool`.  The
functions return the post-state together with a success flag, because a
failure thrown after the expense deletes of a group still leaves those
deletes performed. -/

def p3deleteExpenseFromDatabase (efails : String → Bool) (w : World) (offline : Bool)
    (eid : String) (now : Nat) : World × Bool :=
  if eid = "" then (w, false)
  else if offline then
    ({ w with queue := w.queue ++ [⟨.expense, eid, now⟩] }, true)
  else if efails eid then (w, false)
  else if (w.db.expenses.filter fun e => e.id = eid).length = 0 then
    ({ w with db := { w.db with expenses := w.db.expenses.filter fun e => e.id ≠ eid } }, true)
  else
    ({ w with
      db := { w.db with expenses := w.db.expenses.filter fun e => e.id ≠ eid }
      queue := cleanupDeleteQueue w.queue .expense eid }, true)

def p3deleteGroupFromDatabase (gfails : String → Bool) (w : World) (offline : Bool)
    (gid : String) (now : Nat) : World × Bool :=
  if gid = "" then (w, false)
  else if offline then
    ({ w with queue := w.queue ++ [⟨.group, gid, now⟩] }, true)
  else if gfails gid then
    ({ w with db := { w.db with expenses := w.db.expenses.filter fun e => e.groupId ≠ gid } },
      false)
  else
    ({ w with
      db := { groups := w.db.groups.filter fun r => r.id ≠ gid
              expenses := w.db.expenses.filter fun e => e.groupId ≠ gid }
      queue := cleanupDeleteQueue w.queue .group gid }, true)

/-- `processDeleteQueue()` (part 003): iterate over a snapshot of the
queue in FIFO order, attempting each deletion and swallowing per-item
failures, then unconditionally clear the whole persisted queue. -/
def processDeleteQueue (efails gfails : String → Bool) (w : World) (now : Nat) : World :=
  if w.queue.length = 0 then w
  else
    let w1 := w.queue.foldl
      (fun acc it =>
        match it.type with
        | .expense => (p3deleteExpenseFromDatabase efails acc false it.id now).1
        | .group => (p3deleteGroupFromDatabase gfails acc false it.id now).1)
      w
    { w1 with queue := [] }

/-! ### Full-sync operation traces (`syncAllDataToDatabase`)

The temporal content of one `syncAll` run is modelled as the list of
operations it performs, in order. -/

inductive SyncEv
  | detectSchema
  | flushDeletes
  | syncUser (uid : String)
  | syncGroup (gid : String)
  | syncExpense (gid eid : String)
  | pause (ms : Nat)
deriving DecidableEq

/-- The per-group body of the sync loop: the group itself, then each of
its expenses, then the pacing delay. -/
def groupBlock (d : Nat) (g : LGroup) : List SyncEv :=
  .syncGroup g.id :: (g.expenses.map fun e => .syncExpense g.id e.id) ++ [.pause d]

def syncBlocks (d : Nat) : List LGroup → List SyncEv
  | [] => []
  | g :: gs => groupBlock d g ++ syncBlocks d gs

/-- Trace of `syncAllDataToDatabase` in the part-003 variant: flush the
delete queue, sync the user, then the group loop with a 100 ms pacing
delay. -/
def syncAllTraceP3 (uid : String) (gs : List LGroup) : List SyncEv :=
  .flushDeletes :: .syncUser uid :: syncBlocks 100 gs

/-- Trace of `syncAllDataToDatabase` in shared-sync.js: schema
detection, user sync, then the group loop with a 200 ms pacing delay —
with no delete-queue flush anywhere in the run. -/
def syncAllTraceMain (uid : String) (gs : List LGroup) : List SyncEv :=
  .detectSchema :: .syncUser uid :: syncBlocks 200 gs

/-- A trace never pushes an expense before its parent group: at every
position, the group id of a `syncExpense` event has already been the
subject of a `syncGroup` event (those already seen are accumulated in
`seen`). -/
def okTrace : List String → List SyncEv → Prop
  | _, [] => True
  | seen, .syncGroup gid :: t => okTrace (gid :: seen) t
  | seen, .syncExpense gid _ :: t => gid ∈ seen ∧ okTrace seen t
  | seen, _ :: t => okTrace seen t

def isGroupEv : SyncEv → Bool
  | .syncGroup _ => true
  | _ => false

def isPauseEv : SyncEv → Bool
  | .pause _ => true
  | _ => false

/-! ### Claim statements

Each `...Spec` definition is the formal statement of (the verified form
of) one claim, phrased over the embedded operations above. -/

/-- C1 statement: behaviour of `confirmGroupDeletion` on a found group
`g`: the confirming user is added to `confirmedBy`; the creator is never
removed from the member list; full confirmation physically deletes the
group with its expenses; a partial confirmation removes the confirming
non-creator member, deleting physically when at most the creator is
left, and otherwise persists the updated `confirmedBy` and member
list. -/
def ConfirmSpec (w : World) (gid u : String) (now : Nat) (g : GroupRow) : Prop :=
  let confirmed := addUnique g.deletionConfirmedBy u
  let remaining := g.members.filter fun m => m ≠ u ∨ m = g.createdBy
  u ∈ confirmed
  ∧ (g.createdBy ∈ g.members → g.createdBy ∈ remaining)
  ∧ ((∀ m ∈ g.members, m ∈ confirmed) →
      ∃ w', confirmGroupDeletion w gid u now = .ok w'
        ∧ (∀ r ∈ w'.db.groups, r.id ≠ gid)
        ∧ (∀ e ∈ w'.db.expenses, e.groupId ≠ gid))
  ∧ (¬(∀ m ∈ g.members, m ∈ confirmed) →
      (remaining = [] ∨ remaining = [g.createdBy]) →
      ∃ w', confirmGroupDeletion w gid u now = .ok w'
        ∧ (∀ r ∈ w'.db.groups, r.id ≠ gid)
        ∧ (∀ e ∈ w'.db.expenses, e.groupId ≠ gid))
  ∧ (¬(∀ m ∈ g.members, m ∈ confirmed) →
      ¬(remaining = [] ∨ remaining = [g.createdBy]) →
      ∃ w', confirmGroupDeletion w gid u now = .ok w'
        ∧ w'.db.groups.find? (fun r => r.id = gid) =
            some { g with
              deletionConfirmedBy := confirmed
              members := remaining
              updatedAt := now }
        ∧ w'.db.expenses = w.db.expenses)

/-- C2 statement: `restoreGroup` on a found group adds the user to
`restoredBy`, retains the previous `restoredBy` entries, and
unconditionally clears `pending`, `initiatedBy`, `confirmedBy` and
`initiatedAt`. -/
def RestoreSpec (w : World) (gid u : String) (now : Nat) (g : GroupRow) : Prop :=
  let restored := addUnique g.deletionRestoredBy u
  u ∈ restored
  ∧ (∀ x ∈ g.deletionRestoredBy, x ∈ restored)
  ∧ ∃ w', restoreGroup w gid u now = .ok w'
      ∧ w'.db.groups.find? (fun r => r.id = gid) =
          some { g with
            pendingDeletion := false
            deletionInitiatedBy := none
            deletionConfirmedBy := []
            deletionRestoredBy := restored
            deletionInitiatedAt := none
            updatedAt := now }
      ∧ w'.db.expenses = w.db.expenses
      ∧ w'.queue = w.queue

/-- C3 statement: initiating deletion (online, non-force
`deleteGroupFromDatabase`) on a found group physically deletes at once
when the creator is the sole member, and otherwise marks the group
pending with the initiator auto-confirmed and the restore log reset. -/
def InitiateSpec (w : World) (gid u : String) (now : Nat) (g : GroupRow) : Prop :=
  (g.members = [g.createdBy] →
    ∃ w', deleteGroupFromDatabase w false gid false u now = .ok w'
      ∧ (∀ r ∈ w'.db.groups, r.id ≠ gid)
      ∧ (∀ e ∈ w'.db.expenses, e.groupId ≠ gid))
  ∧ (g.members ≠ [g.createdBy] →
    ∃ w', deleteGroupFromDatabase w false gid false u now = .ok w'
      ∧ w'.db.groups.find? (fun r => r.id = gid) =
          some { g with
            pendingDeletion := true
            deletionInitiatedBy := some u
            deletionConfirmedBy := [u]
            deletionRestoredBy := []
            deletionInitiatedAt := some now
            updatedAt := now }
      ∧ w'.db.expenses = w.db.expenses)

/-- C4 statement: remote-id resolution follows the priority
existing `supabaseId`, UUID-shaped local id, fresh version-4-shaped
UUID stored back onto the entity; and resolving a second time returns
the same id without changing the entity. -/
def ResolveSpec (g : GroupEnt) (e : ExpenseEnt) (rand : Nat → Fin 16)
    (laterFresh : String) : Prop :=
  let fresh := generateUUID rand
  let rg := resolveGroupRemoteId g fresh
  let re := resolveExpenseRemoteId e fresh
  (∀ s, g.supabaseId = some s → rg.1 = s ∧ rg.2 = g)
  ∧ (g.supabaseId = none → uuidShaped g.id = true →
      rg.1 = g.id ∧ rg.2.supabaseId = some g.id)
  ∧ (g.supabaseId = none → uuidShaped g.id = false →
      rg.1 = fresh ∧ uuidShaped rg.1 = true ∧ rg.2.supabaseId = some fresh)
  ∧ resolveGroupRemoteId rg.2 laterFresh = (rg.1, rg.2)
  ∧ (∀ s, e.supabaseId = some s → re.1 = s ∧ re.2 = e)
  ∧ (e.supabaseId = none → uuidShaped e.id = true →
      re.1 = e.id ∧ re.2.supabaseId = some e.id)
  ∧ (e.supabaseId = none → uuidShaped e.id = false →
      re.1 = fresh ∧ uuidShaped re.1 = true ∧ re.2.supabaseId = some fresh)
  ∧ resolveExpenseRemoteId re.2 laterFresh = (re.1, re.2)

/-- C5 statement: `N` concurrent calls to `detect()` produce exactly one
probe round (the first call starts it, the others join it), completion
marks the schema checked with the probed mapping, and no later event
sequence ever starts another probe round. -/
def DetectSpec (cols : String → String → Bool) (N : Nat) (tr : List DetEvent) : Prop :=
  let r := runDet cols detectInit (List.replicate N .call ++ [.complete])
  r.2 = .started :: List.replicate (N - 1) .joined
  ∧ r.1.schemaChecked = true
  ∧ r.1.mapping = applyProbes cols defaultSchemaMap
  ∧ .started ∉ (runDet cols r.1 tr).2

/-- C6 statement: online deletes are idempotent — a delete affecting
zero remote rows succeeds (for expenses, with the state unchanged), a
force group delete always succeeds, and repeating either delete leaves
the end state of the first call untouched. -/
def DeleteIdemSpec (w : World) (eid gid u : String) (now now2 : Nat) : Prop :=
  ((∀ e ∈ w.db.expenses, e.id ≠ eid) →
    deleteExpenseFromDatabase w false eid now = .ok w)
  ∧ (∃ w', deleteGroupFromDatabase w false gid true u now = .ok w')
  ∧ (∀ w', deleteExpenseFromDatabase w false eid now = .ok w' →
      deleteExpenseFromDatabase w' false eid now2 = .ok w')
  ∧ (∀ w', deleteGroupFromDatabase w false gid true u now = .ok w' →
      deleteGroupFromDatabase w' false gid true u now2 = .ok w')

/-- C7 statement (verified form): deleting an expense offline appends
exactly one queue entry and succeeds without touching the remote store;
online, the remote delete-by-id is issued and it succeeds, but the
matching queue entry is removed only when at least one remote row was
affected. -/
def OfflineDeleteSpec (w : World) (eid : String) (now : Nat) : Prop :=
  deleteExpenseFromDatabase w true eid now =
    .ok { w with queue := w.queue ++ [⟨.expense, eid, now⟩] }
  ∧ (∃ w', deleteExpenseFromDatabase w false eid now = .ok w')
  ∧ (∀ w', deleteExpenseFromDatabase w false eid now = .ok w' →
      w'.db.expenses = w.db.expenses.filter (fun e => e.id ≠ eid)
      ∧ w'.db.groups = w.db.groups
      ∧ ((w.db.expenses.filter fun e => e.id = eid).length = 0 → w'.queue = w.queue)
      ∧ ((w.db.expenses.filter fun e => e.id = eid).length ≠ 0 →
          w'.queue = cleanupDeleteQueue w.queue .expense eid))

/-- C9 statement (verified form): the part-003 save recomputes both
derived fields; the shared-sync.js save recomputes `totalExpenses`. -/
def DerivedSpec (gs : List LGroup) : Prop :=
  (∀ g' ∈ saveToLocalStorage gs,
    g'.totalExpenses = (g'.expenses.map (·.amount)).sum
    ∧ ∀ e' ∈ g'.expenses, 0 < e'.splitBetween.length →
        e'.perPersonAmount = e'.amount / (e'.splitBetween.length : ℚ))
  ∧ ∀ g' ∈ saveGroupsToLocalStorageSafe gs,
      g'.totalExpenses = (g'.expenses.map (·.amount)).sum

/-- C10 statement (verified form): in the part-003 run the delete queue
is flushed first, then the user is synced; in both variants the groups
appear in array order, every expense comes after its parent group, and
there is one pacing delay per group; the shared-sync.js run contains no
delete-queue flush at all. -/
def SyncOrderSpec (uid : String) (gs : List LGroup) : Prop :=
  (syncAllTraceP3 uid gs).head? = some .flushDeletes
  ∧ (syncAllTraceP3 uid gs).get? 1 = some (.syncUser uid)
  ∧ okTrace [] (syncAllTraceP3 uid gs)
  ∧ (syncAllTraceP3 uid gs).filter isGroupEv = gs.map (fun g => .syncGroup g.id)
  ∧ ((syncAllTraceP3 uid gs).filter isPauseEv).length = gs.length
  ∧ .flushDeletes ∉ syncAllTraceMain uid gs
  ∧ okTrace [] (syncAllTraceMain uid gs)
  ∧ (syncAllTraceMain uid gs).filter isGroupEv = gs.map (fun g => .syncGroup g.id)
  ∧ ((syncAllTraceMain uid gs).filter isPauseEv).length = gs.length

/-! ### Concrete instances used by witnesses and counterexamples -/

def G0 : GroupRow :=
  { id := "g1", name := "Trip", createdBy := "alice"
    members := ["alice", "bob", "carol"], participants := []
    pendingDeletion := true, deletionInitiatedBy := some "alice"
    deletionConfirmedBy := ["alice"], deletionRestoredBy := []
    deletionInitiatedAt := some 1, updatedAt := 1 }

def E0 : ExpenseRow := { id := "e1", groupId := "g1" }

def W0 : World :=
  { db := { groups := [G0], expenses := [E0] }, localGroups := [], queue := [] }

def g0 : GroupEnt := { id := "grp-1", supabaseId := none }

def e0 : ExpenseEnt :=
  { id := "e1", supabaseId := some "11111111-1111-4111-8111-111111111111" }

def rand0 : Nat → Fin 16 := fun _ => 0

def cols0 : String → String → Bool := fun _ _ => true

/-- World whose remote store lacks expense e1 while the delete queue
still holds an entry for it. -/
def Wq : World :=
  { db := { groups := [], expenses := [] }, localGroups := []
    queue := [⟨.expense, "e1", 5⟩] }

/-- World with expense e1 present remotely and queued for deletion. -/
def W8 : World :=
  { db := { groups := [], expenses := [{ id := "e1", groupId := "g1" }] }
    localGroups := [], queue := [⟨.expense, "e1", 7⟩] }

/-- Failure pattern under which the remote delete of e1 fails. -/
def efails8 : String → Bool := fun i => i == "e1"

def gfails8 : String → Bool := fun _ => false

/-- Cached expense whose stored per-person share is stale. -/
def ce : LExpense :=
  { id := "e1", amount := 90, splitBetween := ["a", "b"], perPersonAmount := 10 }

def cg : LGroup :=
  { id := "g1", supabaseId := none, expenses := [ce], totalExpenses := 0 }

def cgOut : LGroup :=
  { id := "g1", supabaseId := none, expenses := [ce], totalExpenses := 90 }

/-- A one-group, one-expense local cache for the trace counterexample. -/
def wg1 : LGroup :=
  { id := "g1", supabaseId := none
    expenses := [{ id := "e1", amount := 1, splitBetween := ["a"], perPersonAmount := 1 }]
    totalExpenses := 1 }

/-! ### Lemmas about UUID generation and shape -/

theorem isHexDigit_hexDigitChar : ∀ n : Fin 16, isHexDigit (hexDigitChar n) = true := by
  decide

theorem isHexDigit_yChar :
    ∀ n : Fin 16, isHexDigit (hexDigitChar ⟨n.val % 4 + 8, by omega⟩) = true := by
  decide

theorem uuidShaped_ne_empty {s : String} (h : uuidShaped s = true) : s ≠ "" := by
  intro he
  rw [he] at h
  exact absurd h (by decide)

theorem hexRun_succ_cons (n : Nat) (c : Char) (cs : List Char) :
    hexRun (n + 1) (c :: cs) = if isHexDigit c then hexRun n cs else none := rfl

theorem hexRun4_cons (c : Char) (cs : List Char) :
    hexRun 4 (c :: cs) = if isHexDigit c then hexRun 3 cs else none := rfl

theorem fillTemplate_nil (rand : Nat → Fin 16) (k : Nat) :
    fillTemplate rand [] k = [] := rfl

theorem fillTemplate_x (rand : Nat → Fin 16) (ts : List TChar) (k : Nat) :
    fillTemplate rand (.x :: ts) k = hexDigitChar (rand k) :: fillTemplate rand ts (k + 1) := rfl

theorem fillTemplate_y (rand : Nat → Fin 16) (ts : List TChar) (k : Nat) :
    fillTemplate rand (.y :: ts) k =
      hexDigitChar ⟨(rand k).val % 4 + 8, by omega⟩ :: fillTemplate rand ts (k + 1) := rfl

theorem fillTemplate_lit (rand : Nat → Fin 16) (c : Char) (ts : List TChar) (k : Nat) :
    fillTemplate rand (.lit c :: ts) k = c :: fillTemplate rand ts (k + 1) := rfl

theorem expectDash_cons (cs : List Char) : expectDash ('-' :: cs) = some cs := rfl

theorem hexRun_fillTemplate_x (rand : Nat → Fin 16) (n : Nat) :
    ∀ (k : Nat) (ts : List TChar),
      hexRun n (fillTemplate rand (List.replicate n .x ++ ts) k) =
        some (fillTemplate rand ts (k + n)) := by
  induction n with
  | zero =>
      intro k ts
      simp [hexRun]
  | succ m ih =>
      intro k ts
      rw [List.replicate_succ, List.cons_append, fillTemplate_x,
        hexRun_succ_cons, if_pos (isHexDigit_hexDigitChar (rand k)), ih (k + 1) ts,
        Nat.add_assoc, Nat.add_comm 1 m]

theorem someBind {a : Type} {b : Type} (x : a) (f : a → Option b) :
    (some x >>= f) = f x := rfl

theorem uuidShaped_generateUUID (rand : Nat → Fin 16) :
    uuidShaped (generateUUID rand) = true := by
  have hdata : (generateUUID rand).data = fillTemplate rand uuidTemplate 0 := rfl
  unfold uuidShaped
  rw [hdata]
  unfold uuidTemplate
  simp only [List.append_assoc, List.cons_append, List.nil_append]
  rw [hexRun_fillTemplate_x rand 8]
  simp only [someBind, fillTemplate_lit, expectDash_cons]
  rw [hexRun_fillTemplate_x rand 4]
  simp only [someBind, fillTemplate_lit, expectDash_cons]
  rw [hexRun4_cons, if_pos (by decide : isHexDigit '4' = true)]
  rw [hexRun_fillTemplate_x rand 3]
  simp only [someBind, fillTemplate_lit, fillTemplate_y, expectDash_cons]
  rw [hexRun4_cons, if_pos (isHexDigit_yChar _)]
  rw [hexRun_fillTemplate_x rand 3]
  simp only [someBind, fillTemplate_lit, expectDash_cons]
  rw [← List.append_nil (List.replicate 12 TChar.x), hexRun_fillTemplate_x rand 12]
  simp [fillTemplate_nil]

/-! ### Lemmas about the identity resolver -/

theorem resolveGroup_some {g : GroupEnt} {s : String} (h : g.supabaseId = some s)
    (hs : s ≠ "") (fresh : String) : resolveGroupRemoteId g fresh = (s, g) := by
  simp [resolveGroupRemoteId, h, otruthy, hs]

theorem resolveGroup_none_uuid {g : GroupEnt} (h : g.supabaseId = none)
    (hu : uuidShaped g.id = true) (fresh : String) :
    resolveGroupRemoteId g fresh = (g.id, { g with supabaseId := some g.id }) := by
  have hid : g.id ≠ "" := uuidShaped_ne_empty hu
  simp [resolveGroupRemoteId, h, otruthy, hid, hu]

theorem resolveGroup_none_notUuid {g : GroupEnt} (h : g.supabaseId = none)
    (hu : uuidShaped g.id = false) (fresh : String) :
    resolveGroupRemoteId g fresh = (fresh, { g with supabaseId := some fresh }) := by
  by_cases hid : g.id = "" <;> simp [resolveGroupRemoteId, h, otruthy, hid, hu]

theorem resolveExpense_some {e : ExpenseEnt} {s : String} (h : e.supabaseId = some s)
    (hu : uuidShaped s = true) (fresh : String) :
    resolveExpenseRemoteId e fresh = (s, e) := by
  have hs : s ≠ "" := uuidShaped_ne_empty hu
  simp [resolveExpenseRemoteId, h, otruthy, hs, hu]

theorem resolveExpense_none_uuid {e : ExpenseEnt} (h : e.supabaseId = none)
    (hu : uuidShaped e.id = true) (fresh : String) :
    resolveExpenseRemoteId e fresh = (e.id, { e with supabaseId := some e.id }) := by
  have hid : e.id ≠ "" := uuidShaped_ne_empty hu
  simp [resolveExpenseRemoteId, h, otruthy, hid, hu]

theorem resolveExpense_none_notUuid {e : ExpenseEnt} (h : e.supabaseId = none)
    (hu : uuidShaped e.id = false) (fresh : String) :
    resolveExpenseRemoteId e fresh = (fresh, { e with supabaseId := some fresh }) := by
  by_cases hid : e.id = "" <;> simp [resolveExpenseRemoteId, h, otruthy, hid, hu]

/-- C4: remote-id resolution is idempotent and follows the priority
existing remote id → UUID-shaped local id → fresh stored version-4
UUID, for groups and expenses alike (entities well-formed per the data
model, whose `remoteId` is a UUID whenever set). -/
theorem C4_resolve_remote_id (g : GroupEnt) (e : ExpenseEnt) (rand : Nat → Fin 16)
    (laterFresh : String) (hg : wfRemoteId g.supabaseId) (he : wfRemoteId e.supabaseId) :
    ResolveSpec g e rand laterFresh := by
  have hfreshU : uuidShaped (generateUUID rand) = true := uuidShaped_generateUUID rand
  unfold ResolveSpec
  refine ⟨?_, ?_, ?_, ?_, ?_, ?_, ?_, ?_⟩
  · intro s hs
    have hsu : uuidShaped s = true := by rw [hs] at hg; exact hg
    rw [resolveGroup_some hs (uuidShaped_ne_empty hsu)]
    exact ⟨rfl, rfl⟩
  · intro hnone hu
    rw [resolveGroup_none_uuid hnone hu]
    exact ⟨rfl, rfl⟩
  · intro hnone hu
    rw [resolveGroup_none_notUuid hnone hu]
    exact ⟨rfl, hfreshU, rfl⟩
  · rcases hsup : g.supabaseId with _ | s
    · by_cases hu : uuidShaped g.id = true
      · rw [resolveGroup_none_uuid hsup hu]
        rw [resolveGroup_some rfl (uuidShaped_ne_empty hu)]
      · rw [resolveGroup_none_notUuid hsup (by simpa using hu)]
        rw [resolveGroup_some rfl (uuidShaped_ne_empty hfreshU)]
    · have hsu : uuidShaped s = true := by rw [hsup] at hg; exact hg
      rw [resolveGroup_some hsup (uuidShaped_ne_empty hsu)]
      rw [resolveGroup_some hsup (uuidShaped_ne_empty hsu)]
  · intro s hs
    have hsu : uuidShaped s = true := by rw [hs] at he; exact he
    rw [resolveExpense_some hs hsu]
    exact ⟨rfl, rfl⟩
  · intro hnone hu
    rw [resolveExpense_none_uuid hnone hu]
    exact ⟨rfl, rfl⟩
  · intro hnone hu
    rw [resolveExpense_none_notUuid hnone hu]
    exact ⟨rfl, hfreshU, rfl⟩
  · rcases hsup : e.supabaseId with _ | s
    · by_cases hu : uuidShaped e.id = true
      · rw [resolveExpense_none_uuid hsup hu]
        rw [resolveExpense_some rfl hu]
      · rw [resolveExpense_none_notUuid hsup (by simpa using hu)]
        rw [resolveExpense_some rfl hfreshU]
    · have hsu : uuidShaped s = true := by rw [hsup] at he; exact he
      rw [resolveExpense_some hsup hsu]
      rw [resolveExpense_some hsup hsu]

/-- C4 witness: a group with a non-UUID local id and an expense that
already carries a UUID remote id. -/
theorem C4_resolve_remote_id_witness :
    wfRemoteId g0.supabaseId ∧ wfRemoteId e0.supabaseId ∧ ResolveSpec g0 e0 rand0 "zz" := by
  have hw : wfRemoteId e0.supabaseId := by
    show uuidShaped "11111111-1111-4111-8111-111111111111" = true
    decide
  exact ⟨trivial, hw, C4_resolve_remote_id g0 e0 rand0 "zz" trivial hw⟩

/-! ### List lemmas for the deletion protocol -/

theorem find?_update (l : List GroupRow) (gid : String) (f : GroupRow → GroupRow)
    (g : GroupRow) (hid : (f g).id = g.id)
    (h : l.find? (fun r => r.id = gid) = some g) :
    (l.map fun r => if r.id = gid then f r else r).find? (fun r => r.id = gid) =
      some (f g) := by
  induction l with
  | nil => simp at h
  | cons a l ih =>
      by_cases ha : a.id = gid
      · rw [List.find?_cons_of_pos _ (by simp [ha])] at h
        injection h with h
        subst h
        simp only [List.map_cons]
        rw [if_pos ha]
        rw [List.find?_cons_of_pos _ (by simp [hid, ha])]
      · rw [List.find?_cons_of_neg _ (by simp [ha])] at h
        simp only [List.map_cons]
        rw [if_neg ha]
        rw [List.find?_cons_of_neg _ (by simp [ha])]
        exact ih h

theorem mem_groups_forceDelete {w : World} {gid : String} {r : GroupRow}
    (h : r ∈ (forceDeleteGroup w gid).db.groups) : r.id ≠ gid := by
  simp only [forceDeleteGroup, List.mem_filter] at h
  simpa using h.2

theorem mem_expenses_forceDelete {w : World} {gid : String} {e : ExpenseRow}
    (h : e ∈ (forceDeleteGroup w gid).db.expenses) : e.groupId ≠ gid := by
  simp only [forceDeleteGroup, List.mem_filter] at h
  simpa using h.2

theorem singleton_cond (l : List String) (c : String) :
    (l.length = 1 ∧ l.head? = some c) ↔ l = [c] := by
  cases l with
  | nil => simp
  | cons a t =>
      cases t with
      | nil => simp
      | cons b t =>
          constructor
          · rintro ⟨h, -⟩
            simp at h
          · intro h
            simp at h

theorem emptyOrCreator_cond (l : List String) (c : String) :
    (l.length = 0 ∨ (l.length = 1 ∧ l.head? = some c)) ↔ (l = [] ∨ l = [c]) := by
  rw [List.length_eq_zero, singleton_cond]

theorem mem_addUnique (l : List String) (u : String) : u ∈ addUnique l u := by
  unfold addUnique
  split
  · assumption
  · simp

theorem subset_addUnique (l : List String) (u : String) :
    ∀ x ∈ l, x ∈ addUnique l u := by
  intro x hx
  unfold addUnique
  split
  · exact hx
  · simp [hx]

/-! ### C1–C3: the collaborative deletion protocol -/

/-- C1: for a pending group with member set `M` and creator `c`,
`confirmGroupDeletion` by `u` adds `u` to `confirmedBy`; if `confirmedBy`
then covers `M` the group and its expenses are physically deleted;
otherwise the non-creator `u` is removed from `M` (never the creator),
and the physical delete also proceeds when only the creator (or nobody)
remains. -/
theorem C1_confirm_group_deletion (w : World) (gid u : String) (now : Nat) (g : GroupRow)
    (hfind : w.db.groups.find? (fun r => r.id = gid) = some g)
    (hpend : g.pendingDeletion = true) :
    ConfirmSpec w gid u now g := by
  unfold ConfirmSpec
  refine ⟨mem_addUnique _ _, ?_, ?_, ?_, ?_⟩
  · intro hc
    simp only [List.mem_filter]
    exact ⟨hc, by simp⟩
  · intro hall
    refine ⟨forceDeleteGroup w gid, ?_, ?_, ?_⟩
    · unfold confirmGroupDeletion
      rw [hfind]
      simp only []
      rw [if_pos hall]
    · intro r hr
      exact mem_groups_forceDelete hr
    · intro e he
      exact mem_expenses_forceDelete he
  · intro hnall hrem
    refine ⟨forceDeleteGroup
        (updateGroup w gid fun r =>
          { r with deletionConfirmedBy := addUnique g.deletionConfirmedBy u,
                   updatedAt := now }) gid, ?_, ?_, ?_⟩
    · unfold confirmGroupDeletion
      rw [hfind]
      simp only []
      rw [if_neg hnall, if_pos ((emptyOrCreator_cond _ _).mpr hrem)]
    · intro r hr
      exact mem_groups_forceDelete hr
    · intro e he
      exact mem_expenses_forceDelete he
  · intro hnall hnrem
    have h1 := find?_update w.db.groups gid
      (fun r => { r with deletionConfirmedBy := addUnique g.deletionConfirmedBy u,
                         updatedAt := now }) g rfl hfind
    have h2 := find?_update _ gid
      (fun r => { r with
          members := g.members.filter fun m => m ≠ u ∨ m = g.createdBy,
          updatedAt := now }) _ rfl h1
    have heq : confirmGroupDeletion w gid u now = .ok
        { updateGroup
            (updateGroup w gid fun r =>
              { r with deletionConfirmedBy := addUnique g.deletionConfirmedBy u,
                       updatedAt := now }) gid
            (fun r =>
              { r with members := g.members.filter fun m => m ≠ u ∨ m = g.createdBy,
                       updatedAt := now }) with
          localGroups := saveGroupsToLocalStorageSafe
            ((updateGroup
                (updateGroup w gid fun r =>
                  { r with deletionConfirmedBy := addUnique g.deletionConfirmedBy u,
                           updatedAt := now }) gid
                (fun r =>
                  { r with members := g.members.filter fun m => m ≠ u ∨ m = g.createdBy,
                           updatedAt := now })).localGroups.filter
              fun lg => lg.id ≠ gid ∧ lg.supabaseId ≠ some gid) } := by
      unfold confirmGroupDeletion
      rw [hfind]
      simp only []
      rw [if_neg hnall, if_neg ((emptyOrCreator_cond _ _).not.mpr hnrem)]
    exact ⟨_, heq, h2, rfl⟩

/-- C1 witness: member bob confirms deletion of the pending three-member
group `G0`; carol has not confirmed yet, so the group survives with bob
removed. -/
theorem C1_confirm_group_deletion_witness :
    W0.db.groups.find? (fun r => r.id = "g1") = some G0
    ∧ G0.pendingDeletion = true
    ∧ ConfirmSpec W0 "g1" "bob" 2 G0 :=
  ⟨by decide, rfl, C1_confirm_group_deletion W0 "g1" "bob" 2 G0 (by decide) rfl⟩

/-- C2: `restoreGroup` by any member adds the member to `restoredBy`,
keeps the previous `restoredBy` entries, and unconditionally resets
`pending`, `initiatedBy`, `confirmedBy` and `initiatedAt`. -/
theorem C2_restore_group (w : World) (gid u : String) (now : Nat) (g : GroupRow)
    (hfind : w.db.groups.find? (fun r => r.id = gid) = some g)
    (hpend : g.pendingDeletion = true)
    (hmem : u ∈ g.members) :
    RestoreSpec w gid u now g := by
  unfold RestoreSpec
  have h1 := find?_update w.db.groups gid
    (fun r => { r with
        pendingDeletion := false
        deletionInitiatedBy := none
        deletionConfirmedBy := []
        deletionRestoredBy := addUnique g.deletionRestoredBy u
        deletionInitiatedAt := none
        updatedAt := now }) g rfl hfind
  have heq : restoreGroup w gid u now = .ok
      (updateGroup w gid fun r =>
        { r with
            pendingDeletion := false
            deletionInitiatedBy := none
            deletionConfirmedBy := []
            deletionRestoredBy := addUnique g.deletionRestoredBy u
            deletionInitiatedAt := none
            updatedAt := now }) := by
    unfold restoreGroup
    rw [hfind]
  exact ⟨mem_addUnique _ _, subset_addUnique _ _, _, heq, h1, rfl, rfl⟩

/-- C2 witness: bob restores the pending group `G0`. -/
theorem C2_restore_group_witness :
    W0.db.groups.find? (fun r => r.id = "g1") = some G0
    ∧ G0.pendingDeletion = true
    ∧ "bob" ∈ G0.members
    ∧ RestoreSpec W0 "g1" "bob" 2 G0 :=
  ⟨by decide, rfl, by decide, C2_restore_group W0 "g1" "bob" 2 G0 (by decide) rfl (by decide)⟩

/-- C3: initiating deletion on a found group deletes immediately when
the creator is the sole member, and otherwise marks the group pending
with `initiatedBy` and `confirmedBy` set to the initiator, `restoredBy`
cleared and `initiatedAt` set to now. -/
theorem C3_initiate_deletion (w : World) (gid u : String) (now : Nat) (g : GroupRow)
    (hgid : gid ≠ "")
    (hfind : w.db.groups.find? (fun r => r.id = gid) = some g) :
    InitiateSpec w gid u now g := by
  unfold InitiateSpec
  constructor
  · intro hsole
    refine ⟨forceDeleteGroup w gid, ?_, ?_, ?_⟩
    · unfold deleteGroupFromDatabase
      rw [if_neg hgid]
      simp only [Bool.false_eq_true, if_false]
      rw [hfind]
      simp only []
      rw [if_pos ((singleton_cond _ _).mpr hsole)]
    · intro r hr
      exact mem_groups_forceDelete hr
    · intro e he
      exact mem_expenses_forceDelete he
  · intro hnsole
    have h1 := find?_update w.db.groups gid
      (fun r => { r with
          pendingDeletion := true
          deletionInitiatedBy := some u
          deletionConfirmedBy := [u]
          deletionRestoredBy := []
          deletionInitiatedAt := some now
          updatedAt := now }) g rfl hfind
    have heq : deleteGroupFromDatabase w false gid false u now = .ok
        (updateGroup w gid fun r =>
          { r with
              pendingDeletion := true
              deletionInitiatedBy := some u
              deletionConfirmedBy := [u]
              deletionRestoredBy := []
              deletionInitiatedAt := some now
              updatedAt := now }) := by
      unfold deleteGroupFromDatabase
      rw [if_neg hgid]
      simp only [Bool.false_eq_true, if_false]
      rw [hfind]
      simp only []
      rw [if_neg ((singleton_cond _ _).not.mpr hnsole)]
    exact ⟨_, heq, h1, rfl⟩

/-- C3 witness: alice initiates deletion of the three-member group. -/
theorem C3_initiate_deletion_witness :
    ("g1" : String) ≠ ""
    ∧ W0.db.groups.find? (fun r => r.id = "g1") = some G0
    ∧ InitiateSpec W0 "g1" "alice" 3 G0 :=
  ⟨by decide, by decide, C3_initiate_deletion W0 "g1" "alice" 3 G0 (by decide) (by decide)⟩

/-! ### C5: single-flight schema detection -/

theorem runDet_append (cols : String → String → Bool) (l1 : List DetEvent) :
    ∀ (s : DetState) (l2 : List DetEvent),
      runDet cols s (l1 ++ l2) =
        ((runDet cols (runDet cols s l1).1 l2).1,
          (runDet cols s l1).2 ++ (runDet cols (runDet cols s l1).1 l2).2) := by
  induction l1 with
  | nil => intro s l2; simp [runDet]
  | cons e es ih =>
      intro s l2
      simp [runDet, ih, List.append_assoc]

theorem runDet_calls_inFlight (cols : String → String → Bool) (k : Nat) :
    ∀ (s : DetState), s.inFlight = true →
      runDet cols s (List.replicate k .call) = (s, List.replicate k .joined) := by
  induction k with
  | zero => intro s _; simp [runDet]
  | succ m ih =>
      intro s h
      simp only [List.replicate_succ, runDet, detStep, h, if_true]
      simp [ih s h]

theorem runDet_after_checked (cols : String → String → Bool) :
    ∀ (tr : List DetEvent) (s : DetState), s.schemaChecked = true →
      (runDet cols s tr).1.schemaChecked = true ∧ .started ∉ (runDet cols s tr).2 := by
  intro tr
  induction tr with
  | nil => intro s hs; simp [runDet, hs]
  | cons e es ih =>
      intro s hs
      cases e with
      | call =>
          by_cases hf : s.inFlight = true
          · simp only [runDet, detStep, hf, if_true]
            have := ih s hs
            simp [this.1, this.2, hs]
          · simp only [runDet, detStep, hf]
            simp only [Bool.not_eq_true] at hf
            simp only [hf, hs, Bool.true_or, if_true, if_false]
            have := ih s hs
            simp [this.1, this.2]
      | complete =>
          by_cases hf : s.inFlight = true
          · simp only [runDet, detStep, hf, if_true]
            have h2 := ih ({ s with inFlight := false, schemaChecked := true, mapping := applyProbes cols s.mapping }) rfl
            simp [h2.1, h2.2]
          · simp only [Bool.not_eq_true] at hf
            simp only [runDet, detStep, hf, Bool.false_eq_true, if_false]
            have h2 := ih s hs
            simp [h2.1, h2.2]

/-- C5: with a configured client, `N ≥ 1` concurrent calls to `detect()`
share a single probe round — the first call starts it, the other `N - 1`
join the in-flight detection — completion marks the schema checked with
the probed mapping independent of `N`, and no later event sequence ever
starts another probe round. -/
theorem C5_schema_detection (cols : String → String → Bool) (N : Nat)
    (tr : List DetEvent) (hN : 1 ≤ N) : DetectSpec cols N tr := by
  obtain ⟨k, rfl⟩ : ∃ k, N = k + 1 := ⟨N - 1, by omega⟩
  unfold DetectSpec
  have hstep1 : detStep cols detectInit .call =
      ({ detectInit with inFlight := true }, some .started) := rfl
  have hrun : runDet cols detectInit (List.replicate (k + 1) .call ++ [.complete]) =
      ({ schemaChecked := true, inFlight := false, hasClient := true,
         mapping := applyProbes cols defaultSchemaMap },
        .started :: List.replicate k .joined) := by
    rw [List.replicate_succ, List.cons_append]
    show runDet cols detectInit (.call :: (List.replicate k .call ++ [.complete])) = _
    simp only [runDet, hstep1]
    rw [runDet_append cols (List.replicate k .call)]
    rw [runDet_calls_inFlight cols k { detectInit with inFlight := true } rfl]
    simp [runDet, detStep, detectInit]
  rw [hrun]
  refine ⟨by simp, rfl, rfl, ?_⟩
  exact (runDet_after_checked cols tr _ rfl).2

/-- C5 witness: two concurrent calls against an all-columns-present
schema, followed by one more call after completion. -/
theorem C5_schema_detection_witness : DetectSpec cols0 2 [.call] :=
  C5_schema_detection cols0 2 [.call] (by decide)

/-! ### C6–C7: idempotent and offline-queued deletes -/

theorem forceDeleteGroup_idem (w : World) (gid : String) :
    forceDeleteGroup (forceDeleteGroup w gid) gid = forceDeleteGroup w gid := by
  unfold forceDeleteGroup cleanupDeleteQueue
  simp [List.filter_filter]

/-- C6: online deletes succeed even when zero remote rows match, and a
second delete of the same id is a no-op on the end state of the
first. -/
theorem C6_delete_idempotent (w : World) (eid gid u : String) (now now2 : Nat)
    (he : eid ≠ "") (hg : gid ≠ "") : DeleteIdemSpec w eid gid u now now2 := by
  unfold DeleteIdemSpec
  refine ⟨?_, ?_, ?_, ?_⟩
  · intro habs
    have hm : (w.db.expenses.filter fun e => e.id = eid) = [] :=
      List.filter_eq_nil.mpr (by intro a ha; simpa using habs a ha)
    have hself : (w.db.expenses.filter fun e => e.id ≠ eid) = w.db.expenses :=
      List.filter_eq_self.mpr (by intro a ha; simpa using habs a ha)
    simp only [ne_eq, decide_not] at hself
    simp [deleteExpenseFromDatabase, he, hm, hself]
  · exact ⟨forceDeleteGroup w gid, by simp [deleteGroupFromDatabase, hg]⟩
  · intro w' h1
    have hexp : w'.db.expenses = w.db.expenses.filter fun e => e.id ≠ eid := by
      unfold deleteExpenseFromDatabase at h1
      rw [if_neg he] at h1
      simp only [Bool.false_eq_true, if_false] at h1
      by_cases hm : (w.db.expenses.filter fun e => e.id = eid).length = 0
      · rw [if_pos hm] at h1
        injection h1 with h1
        subst h1
        rfl
      · rw [if_neg hm] at h1
        injection h1 with h1
        subst h1
        rfl
    have hm2 : (w'.db.expenses.filter fun e => e.id = eid) = [] := by
      rw [hexp]
      refine List.filter_eq_nil.mpr ?_
      intro a ha
      have h2 := (List.mem_filter.mp ha).2
      simpa using h2
    have hself2 : (w'.db.expenses.filter fun e => e.id ≠ eid) = w'.db.expenses := by
      rw [hexp]
      refine List.filter_eq_self.mpr ?_
      intro a ha
      exact (List.mem_filter.mp ha).2
    simp only [ne_eq, decide_not] at hself2
    simp [deleteExpenseFromDatabase, he, hm2, hself2]
  · intro w' h1
    have hw' : forceDeleteGroup w gid = w' := by
      unfold deleteGroupFromDatabase at h1
      rw [if_neg hg] at h1
      simp only [Bool.false_eq_true, if_false, if_true] at h1
      injection h1
    subst hw'
    simp [deleteGroupFromDatabase, hg, forceDeleteGroup_idem]

/-- C6 witness: the world `W0` and fresh ids absent from the store. -/
theorem C6_delete_idempotent_witness :
    ("e9" : String) ≠ "" ∧ ("g9" : String) ≠ "" ∧ DeleteIdemSpec W0 "e9" "g9" "alice" 4 5 :=
  ⟨by decide, by decide, C6_delete_idempotent W0 "e9" "g9" "alice" 4 5 (by decide) (by decide)⟩

/-- C7 amended: offline deletion queues exactly one entry and succeeds
without touching the remote store; online deletion succeeds and removes
a matching queue entry exactly when at least one remote row was
deleted. -/
theorem C7_offline_queue (w : World) (eid : String) (now : Nat) (he : eid ≠ "") :
    OfflineDeleteSpec w eid now := by
  unfold OfflineDeleteSpec
  refine ⟨?_, ?_, ?_⟩
  · simp [deleteExpenseFromDatabase, he]
  · by_cases hm : (w.db.expenses.filter fun e => e.id = eid).length = 0
    · exact ⟨{ w with db := { w.db with expenses := w.db.expenses.filter fun e => e.id ≠ eid } },
        by simp [deleteExpenseFromDatabase, he, hm]⟩
    · refine ⟨{ w with
        db := { w.db with expenses := w.db.expenses.filter fun e => e.id ≠ eid }
        queue := cleanupDeleteQueue w.queue .expense eid }, ?_⟩
      unfold deleteExpenseFromDatabase
      rw [if_neg he]
      simp only [Bool.false_eq_true, if_false]
      rw [if_neg hm]
  · intro w' h1
    unfold deleteExpenseFromDatabase at h1
    rw [if_neg he] at h1
    simp only [Bool.false_eq_true, if_false] at h1
    by_cases hm : (w.db.expenses.filter fun e => e.id = eid).length = 0
    · rw [if_pos hm] at h1
      injection h1 with h1
      subst h1
      exact ⟨rfl, rfl, fun _ => rfl, fun hc => absurd hm hc⟩
    · rw [if_neg hm] at h1
      injection h1 with h1
      subst h1
      exact ⟨rfl, rfl, fun hc => absurd hc hm, fun _ => rfl⟩

/-- C7 witness: offline/online deletion of `e1` against the world
`W8`. -/
theorem C7_offline_queue_witness :
    ("e1" : String) ≠ "" ∧ OfflineDeleteSpec W8 "e1" 9 :=
  ⟨by decide, C7_offline_queue W8 "e1" 9 (by decide)⟩

/-- C7 counterexample: with the expense absent remotely but still
queued, the online delete succeeds yet leaves the matching queue entry
in place — the claim's unconditional "any matching queue entry is
removed" fails. -/
theorem C7_zero_rows_keeps_queue_entry :
    deleteExpenseFromDatabase Wq false "e1" 9 = .ok Wq
    ∧ (⟨.expense, "e1", 5⟩ : QItem) ∈ Wq.queue := by
  constructor
  · rfl
  · simp [Wq]

/-! ### C8: the delete queue is cleared even after a failed item -/

/-- C8: with one queued expense deletion whose remote delete fails, the
per-item attempt reports failure, yet `processDeleteQueue` clears the
entire queue and the expense is still present remotely — the failed
item does not remain queued for a future attempt. -/
theorem C8_queue_cleared_despite_failure :
    (p3deleteExpenseFromDatabase efails8 W8 false "e1" 9).2 = false
    ∧ processDeleteQueue efails8 gfails8 W8 9 = { W8 with queue := [] }
    ∧ (processDeleteQueue efails8 gfails8 W8 9).db.expenses =
        [{ id := "e1", groupId := "g1" }] := by
  refine ⟨rfl, ?_, rfl⟩
  rfl

/-! ### C9: derived fields recomputed on save -/

/-- C9 counterexample: `saveGroupsToLocalStorageSafe` persists a group
whose expense keeps its stale `perPersonAmount` (10 instead of
90 / 2 = 45), so the claim fails for this save function. -/
theorem C9_safe_save_keeps_stale_perPerson :
    saveGroupsToLocalStorageSafe [cg] = [cgOut]
    ∧ ce ∈ cgOut.expenses
    ∧ 0 < ce.splitBetween.length
    ∧ ce.perPersonAmount ≠ ce.amount / (ce.splitBetween.length : ℚ) := by
  refine ⟨?_, by simp [cgOut, ce], by simp [ce], ?_⟩
  · simp [saveGroupsToLocalStorageSafe, cg, cgOut, ce]
  · simp [ce]
    norm_num

/-- C9 amended: the part-003 `saveToLocalStorage` recomputes both
`totalExpenses` and `perPersonAmount` (for non-empty split sets);
`saveGroupsToLocalStorageSafe` recomputes `totalExpenses` only. -/
theorem C9_derived_fields (gs : List LGroup) : DerivedSpec gs := by
  unfold DerivedSpec
  have hmap : ∀ es : List LExpense,
      ((es.map fun e =>
        if e.splitBetween.length > 0 then
          { e with perPersonAmount := e.amount / (e.splitBetween.length : ℚ) }
        else e).map (·.amount)) = es.map (·.amount) := by
    intro es
    induction es with
    | nil => rfl
    | cons a t ih =>
        simp only [List.map_cons, ih]
        congr 1
        split <;> rfl
  constructor
  · intro g' hg'
    simp only [saveToLocalStorage, List.mem_map] at hg'
    obtain ⟨g, hgmem, rfl⟩ := hg'
    by_cases hlen : g.expenses.length > 0
    · rw [if_pos hlen]
      constructor
      · show (g.expenses.map (·.amount)).sum =
          ((g.expenses.map fun e =>
            if e.splitBetween.length > 0 then
              { e with perPersonAmount := e.amount / (e.splitBetween.length : ℚ) }
            else e).map (·.amount)).sum
        rw [hmap]
      · intro e' he' hk
        simp only [List.mem_map] at he'
        obtain ⟨e, hemem, rfl⟩ := he'
        by_cases hsplit : e.splitBetween.length > 0
        · rw [if_pos hsplit]
        · rw [if_neg hsplit] at hk ⊢
          omega
    · rw [if_neg hlen]
      have hnil : g.expenses = [] := by
        cases hx : g.expenses with
        | nil => rfl
        | cons a t => rw [hx] at hlen; simp at hlen
      constructor
      · show (0 : ℚ) = _
        simp [hnil]
      · intro e' he'
        simp [hnil] at he'
  · intro g' hg'
    simp only [saveGroupsToLocalStorageSafe, List.mem_map] at hg'
    obtain ⟨g, hgmem, rfl⟩ := hg'
    by_cases hlen : g.expenses.length > 0
    · rw [if_pos hlen]
    · rw [if_neg hlen]
      have hnil : g.expenses = [] := by
        cases hx : g.expenses with
        | nil => rfl
        | cons a t => rw [hx] at hlen; simp at hlen
      show (0 : ℚ) = _
      simp [hnil]

/-- C9 witness: the amended statement at the concrete one-group
cache. -/
theorem C9_derived_fields_witness : DerivedSpec [cg] :=
  C9_derived_fields [cg]

/-! ### C10: ordering inside one full-sync run -/

theorem okTrace_mono : ∀ (t : List SyncEv) (s1 s2 : List String),
    s1 ⊆ s2 → okTrace s1 t → okTrace s2 t := by
  intro t
  induction t with
  | nil => intro s1 s2 _ _; trivial
  | cons e t ih =>
      intro s1 s2 hsub h
      cases e with
      | detectSchema => exact ih _ _ hsub h
      | flushDeletes => exact ih _ _ hsub h
      | syncUser uid => exact ih _ _ hsub h
      | pause ms => exact ih _ _ hsub h
      | syncGroup gid => exact ih _ _ (List.cons_subset_cons gid hsub) h
      | syncExpense gid eid => exact ⟨hsub h.1, ih _ _ hsub h.2⟩

theorem okTrace_expenses_append (gid : String) :
    ∀ (es : List LExpense) (seen : List String) (t : List SyncEv),
      gid ∈ seen → okTrace seen t →
      okTrace seen ((es.map fun e => SyncEv.syncExpense gid e.id) ++ t) := by
  intro es
  induction es with
  | nil => intro seen t _ h; exact h
  | cons a es ih => intro seen t hg h; exact ⟨hg, ih seen t hg h⟩

theorem okTrace_syncBlocks (d : Nat) :
    ∀ (gs : List LGroup) (seen : List String), okTrace seen (syncBlocks d gs) := by
  intro gs
  induction gs with
  | nil => intro seen; trivial
  | cons g gs ih =>
      intro seen
      have hassoc : syncBlocks d (g :: gs) =
          SyncEv.syncGroup g.id ::
            ((g.expenses.map fun e => SyncEv.syncExpense g.id e.id) ++
              ([SyncEv.pause d] ++ syncBlocks d gs)) := by
        show groupBlock d g ++ syncBlocks d gs = _
        simp [groupBlock, List.append_assoc]
      rw [hassoc]
      show okTrace (g.id :: seen)
        ((g.expenses.map fun e => SyncEv.syncExpense g.id e.id) ++
          ([SyncEv.pause d] ++ syncBlocks d gs))
      exact okTrace_expenses_append g.id g.expenses (g.id :: seen) _
        (List.mem_cons_self g.id seen) (ih (g.id :: seen))

theorem filter_isGroupEv_expenses (gid : String) (es : List LExpense) :
    (es.map fun e => SyncEv.syncExpense gid e.id).filter isGroupEv = [] := by
  induction es with
  | nil => rfl
  | cons a t ih => simp [List.filter_cons, isGroupEv, ih]

theorem filter_isGroupEv_syncBlocks (d : Nat) :
    ∀ gs : List LGroup,
      (syncBlocks d gs).filter isGroupEv = gs.map fun g => SyncEv.syncGroup g.id := by
  intro gs
  induction gs with
  | nil => rfl
  | cons g gs ih =>
      show (groupBlock d g ++ syncBlocks d gs).filter isGroupEv = _
      rw [List.filter_append]
      have h1 : (groupBlock d g).filter isGroupEv = [SyncEv.syncGroup g.id] := by
        unfold groupBlock
        simp [List.filter_cons, List.filter_append, isGroupEv, filter_isGroupEv_expenses]
      rw [h1, ih]
      rfl

theorem filter_isPauseEv_expenses (gid : String) (es : List LExpense) :
    (es.map fun e => SyncEv.syncExpense gid e.id).filter isPauseEv = [] := by
  induction es with
  | nil => rfl
  | cons a t ih => simp [List.filter_cons, isPauseEv, ih]

theorem pause_count_syncBlocks (d : Nat) :
    ∀ gs : List LGroup, ((syncBlocks d gs).filter isPauseEv).length = gs.length := by
  intro gs
  induction gs with
  | nil => rfl
  | cons g gs ih =>
      show ((groupBlock d g ++ syncBlocks d gs).filter isPauseEv).length = gs.length + 1
      rw [List.filter_append]
      have h1 : (groupBlock d g).filter isPauseEv = [SyncEv.pause d] := by
        unfold groupBlock
        simp [List.filter_cons, List.filter_append, isPauseEv, filter_isPauseEv_expenses]
      rw [h1, List.length_append, ih]
      simp [Nat.add_comm]

theorem flush_not_mem_syncBlocks (d : Nat) :
    ∀ gs : List LGroup, SyncEv.flushDeletes ∉ syncBlocks d gs := by
  intro gs
  induction gs with
  | nil => simp [syncBlocks]
  | cons g gs ih =>
      show SyncEv.flushDeletes ∉ groupBlock d g ++ syncBlocks d gs
      simp [groupBlock, List.mem_append, List.mem_map, ih]

/-- C10 amended: the part-003 run flushes queued deletions first, then
syncs the user; both variants sync the groups in array order, never
push an expense before its parent group, and pace with one delay per
group; the shared-sync.js run contains no delete-queue flush. -/
theorem C10_sync_order (uid : String) (gs : List LGroup) : SyncOrderSpec uid gs := by
  unfold SyncOrderSpec
  refine ⟨rfl, rfl, ?_, ?_, ?_, ?_, ?_, ?_, ?_⟩
  · exact okTrace_syncBlocks 100 gs []
  · exact filter_isGroupEv_syncBlocks 100 gs
  · exact pause_count_syncBlocks 100 gs
  · intro hmem
    simp only [syncAllTraceMain, List.mem_cons] at hmem
    rcases hmem with h | h | h
    · exact absurd h (by simp)
    · exact absurd h (by simp)
    · exact flush_not_mem_syncBlocks 200 gs h
  · exact okTrace_syncBlocks 200 gs []
  · exact filter_isGroupEv_syncBlocks 200 gs
  · exact pause_count_syncBlocks 200 gs

/-- C10 counterexample: a concrete shared-sync.js run contains no
delete-queue flush at all (while the claim requires queued deletions to
be flushed first). -/
theorem C10_main_run_never_flushes :
    SyncEv.flushDeletes ∉ syncAllTraceMain "alice" [wg1]
    ∧ syncAllTraceMain "alice" [wg1] =
      [.detectSchema, .syncUser "alice", .syncGroup "g1", .syncExpense "g1" "e1", .pause 200] := by
  constructor
  · decide
  · rfl

end SplitXpense
